import Mathlib

/-!
Shallow embedding of `apps/meteor/app/livechat/server/business-hour/AbstractBusinessHour.ts`
(Rocket.Chat livechat business-hour core).

Time model: a weekly instant is a number of minutes since the start of the week
(Sunday 00:00, moment's `en` locale week), so a week has `10080` minutes.  A
timezone is modelled by its UTC offset in minutes at the evaluated instant, as
supplied by the ambient `moment-timezone` database (`tzdb : String → Int`); the
server process's own current offset (`moment().utcOffset()`, minutes) is the
parameter `serverOffset`.
-/

namespace BusinessHour

/-- Minutes in one week (`7 * 24 * 60`). -/
def weekMinutes : Nat := 10080

/-- A (day-of-week, time-of-day) pair as moment renders with `dddd` / `HH:mm`:
`dayOfWeek` is the moment weekday index (Sunday = 0 … Saturday = 6), `time`
is minutes since midnight. -/
structure WeekTime where
  dayOfWeek : Nat
  time : Nat
  deriving Repr, DecidableEq

/-- Weekday index of a week-minute count together with its minutes-of-day. -/
def toWeekTime (weekMinute : Nat) : WeekTime :=
  ⟨weekMinute / 1440, weekMinute % 1440⟩

/-- The week-minute denoted by a `WeekTime`. -/
def weekTimeToMinute (w : WeekTime) : Nat :=
  w.dayOfWeek * 1440 + w.time

/-- moment `dddd` day names, Sunday-first (`en` locale). -/
def dayName (i : Nat) : String :=
  match i % 7 with
  | 0 => "Sunday"
  | 1 => "Monday"
  | 2 => "Tuesday"
  | 3 => "Wednesday"
  | 4 => "Thursday"
  | 5 => "Friday"
  | _ => "Saturday"

/-- Two-digit zero-padded rendering of a number below 100 (moment `HH` / `mm`). -/
def twoDigits (n : Nat) : String :=
  (if n < 10 then "0" else "") ++ toString n

/-- moment `HH:mm` rendering of a minutes-of-day value. -/
def hhmm (m : Nat) : String :=
  twoDigits (m / 60 % 24) ++ ":" ++ twoDigits (m % 60)

/-- One entry of `businessHourData.workHours` before `convertWorkHours` runs:
the operator-authored weekday with its `open` flag and the `start` / `finish`
local clock strings, kept as minutes since local midnight. -/
structure WorkHour where
  day : Nat
  «open» : Bool
  start : Nat
  finish : Nat
  deriving Repr, DecidableEq

/-- `moment.tz(day:start, 'dddd:HH:mm', tz).utc()` as an instant: the local
weekday/time parsed into the current week, minus the zone's UTC offset.  Kept
as an `Int` (not reduced mod one week) because `isBefore` / `isSame` compare
absolute instants. -/
def localToUtcInstant (tzOffset : Int) (day time : Nat) : Int :=
  (day * 1440 + time : Int) - tzOffset

/-- UTC instant of a work hour's start. -/
def startUtcInstant (tzOffset : Int) (h : WorkHour) : Int :=
  localToUtcInstant tzOffset h.day h.start

/-- UTC instant of a work hour's finish. -/
def finishUtcInstant (tzOffset : Int) (h : WorkHour) : Int :=
  localToUtcInstant tzOffset h.day h.finish

/-- Error thrown when `hour.open && finishUtc.isBefore(startUtc)`. -/
def errFinishBeforeStart : String := "error-business-hour-finish-time-before-start-time"

/-- Error thrown when `hour.open && startUtc.isSame(finishUtc)`. -/
def errFinishEqualsStart : String := "error-business-hour-finish-time-equals-start-time"

/-- The validation performed at the top of each `convertWorkHours` loop
iteration, before the hour record is touched: `some err` when the iteration
throws, `none` when it proceeds to normalize. -/
def validateHour (tzOffset : Int) (h : WorkHour) : Option String :=
  if h.«open» && decide (finishUtcInstant tzOffset h < startUtcInstant tzOffset h) then
    some errFinishBeforeStart
  else if h.«open» && decide (startUtcInstant tzOffset h = finishUtcInstant tzOffset h) then
    some errFinishEqualsStart
  else
    none

/-- The composite value `convertWorkHours` writes over `hour.start` /
`hour.finish`: the original local string (`time`, kept as minutes), the
`utc` representation (`format('dddd')` / `format('HH:mm')` of the UTC
instant) and the `cron` trigger key. -/
structure NormalizedTime where
  time : Nat
  utc : WeekTime
  cron : WeekTime
  deriving Repr, DecidableEq

/-- `formatDayOfTheWeekFromServerTimezoneAndUtcHour`: re-parse the UTC
`dddd:HH:mm` rendering into the current week and `.add(moment().utcOffset() / 60, 'hours')`,
i.e. shift the UTC week-time by the server process's current UTC offset
(a plain numeric offset, `serverOffset` minutes). -/
def serverShift (serverOffset : Int) (utc : WeekTime) : WeekTime :=
  toWeekTime (((weekTimeToMinute utc : Int) + serverOffset).emod (weekMinutes : Int)).toNat

/-- Normalize one endpoint (local minutes-of-day on `day`) into the composite
`{ time, utc, cron }` value. -/
def normalizeEndpoint (tzOffset serverOffset : Int) (day time : Nat) : NormalizedTime :=
  let utc := toWeekTime ((localToUtcInstant tzOffset day time).emod (weekMinutes : Int)).toNat
  { time := time
    utc := utc
    cron := serverShift serverOffset utc }

/-- A `workHours` entry after its iteration of `convertWorkHours` has run:
`start` and `finish` replaced by their normalized composites. -/
structure ConvertedWorkHour where
  day : Nat
  «open» : Bool
  start : NormalizedTime
  finish : NormalizedTime
  deriving Repr, DecidableEq

/-- The successful body of one `convertWorkHours` iteration. -/
def convertHour (tzOffset serverOffset : Int) (h : WorkHour) : ConvertedWorkHour :=
  { day := h.day
    «open» := h.«open»
    start := normalizeEndpoint tzOffset serverOffset h.day h.start
    finish := normalizeEndpoint tzOffset serverOffset h.day h.finish }

/-- State of one slot of the caller's `workHours` array while the
`forEach` of `convertWorkHours` runs: either still the raw authored record or
already overwritten in place with the normalized one. -/
inductive HourSlot where
  | raw (h : WorkHour)
  | converted (h : ConvertedWorkHour)
  deriving Repr, DecidableEq

/-- The in-place `forEach` of `convertWorkHours` over the `workHours` array:
returns the array as the caller sees it afterwards, together with the thrown
error if an iteration threw.  Each iteration validates first and mutates its
slot only on success; a throw stops the loop, leaving later slots raw. -/
def convertLoop (tzOffset serverOffset : Int) :
    List WorkHour → List HourSlot × Option String
  | [] => ([], none)
  | h :: rest =>
    match validateHour tzOffset h with
    | some err => (HourSlot.raw h :: rest.map HourSlot.raw, some err)
    | none =>
      let r := convertLoop tzOffset serverOffset rest
      (HourSlot.converted (convertHour tzOffset serverOffset h) :: r.1, r.2)

/-- `businessHourData` as `baseSaveBusinessHour` receives it (`timezone.name`
resolved to minutes through the ambient `tzdb` by the callers of the model). -/
structure BusinessHourData where
  _id : Option String
  active : Bool
  timezoneName : String
  workHours : List WorkHour
  deriving Repr, DecidableEq

/-- `businessHourData` after `convertWorkHours` returned normally. -/
structure ConvertedBusinessHourData where
  _id : Option String
  active : Bool
  timezoneName : String
  workHours : List ConvertedWorkHour
  deriving Repr, DecidableEq

/-- Strip the `HourSlot` wrappers after a loop that threw nowhere. -/
def slotsToConverted : List HourSlot → List ConvertedWorkHour
  | [] => []
  | HourSlot.raw _ :: rest => slotsToConverted rest
  | HourSlot.converted h :: rest => h :: slotsToConverted rest

/-- `convertWorkHours(businessHourData)`: run the loop; a thrown error
propagates, otherwise the (mutated) record is returned. -/
def convertWorkHours (tzdb : String → Int) (serverOffset : Int)
    (bh : BusinessHourData) : Except String ConvertedBusinessHourData :=
  let r := convertLoop (tzdb bh.timezoneName) serverOffset bh.workHours
  match r.2 with
  | some e => Except.error e
  | none =>
    Except.ok { _id := bh._id, active := bh.active, timezoneName := bh.timezoneName,
                workHours := slotsToConverted r.1 }

/-- The business-hour collection as `baseSaveBusinessHour` touches it:
stored documents keyed by id, plus the id MongoDB mints for the next insert. -/
structure BHRepo where
  docs : List (String × ConvertedBusinessHourData)
  nextId : String
  deriving Repr, DecidableEq

/-- `updateOne({ _id }, { $set: businessHourData })` on the stored collection. -/
def repoUpdateOne (repo : BHRepo) (id : String) (bh : ConvertedBusinessHourData) : BHRepo :=
  { repo with docs := repo.docs.map (fun p => if p.1 = id then (p.1, bh) else p) }

/-- `insertOne(businessHourData)`: store under the minted id and return it. -/
def repoInsertOne (repo : BHRepo) (bh : ConvertedBusinessHourData) : BHRepo × String :=
  ({ docs := repo.docs ++ [(repo.nextId, bh)], nextId := repo.nextId ++ "+" }, repo.nextId)

/-- `baseSaveBusinessHour`: coerce `active` to boolean (already boolean in the
model), run `convertWorkHours`, then update when the draft carries an `_id`
and insert otherwise.  The repository state is returned alongside the result
so that a thrown validation error leaves it visible. -/
def baseSaveBusinessHour (tzdb : String → Int) (serverOffset : Int)
    (bh : BusinessHourData) (repo : BHRepo) : BHRepo × Except String String :=
  match convertWorkHours tzdb serverOffset bh with
  | Except.error e => (repo, Except.error e)
  | Except.ok cbh =>
    match cbh._id with
    | some id => (repoUpdateOne repo id cbh, Except.ok id)
    | none =>
      let (repo, insertedId) := repoInsertOne repo cbh
      (repo, Except.ok insertedId)

/-- `getUTCFromTimezone` helper: moment's `Z` format of an offset in minutes,
e.g. `+02:00` / `-05:30`. -/
def formatZ (offset : Int) : String :=
  (if offset < 0 then "-" else "+") ++
    twoDigits (offset.natAbs / 60) ++ ":" ++ twoDigits (offset.natAbs % 60)

/-- `String(moment().utcOffset() / 60)`: JavaScript's decimal rendering of the
offset divided by 60, for the quarter-hour offsets `moment-timezone` produces
(e.g. `2`, `5.5`, `-2.75`). -/
def offsetNumberString (offset : Int) : String :=
  (if offset < 0 then "-" else "") ++
    toString (offset.natAbs / 60) ++
    (match offset.natAbs % 60 with
     | 15 => ".25"
     | 30 => ".5"
     | 45 => ".75"
     | _ => "")

/-- `getUTCFromTimezone(timezone?)`: without a timezone, the server's current
UTC offset divided by 60 as a bare number string; with one, moment's `Z`
offset string for that zone. -/
def getUTCFromTimezone (tzdb : String → Int) (serverOffset : Int)
    (timezone : Option String) : String :=
  match timezone with
  | none => offsetNumberString serverOffset
  | some tz => formatZ (tzdb tz)

/-! ### Agent (user) records and the behavior operations

The `Users` repository methods called here (`setLivechatStatusIf`,
`setLivechatStatus`, `addBusinessHourByAgentIds`,
`removeBusinessHoursFromAllUsers`, `isAgentWithinBusinessHours`) live outside
the given source file; they are modelled from the spec's `AgentRepository`
interface, with MongoDB conditional-update semantics for the guard objects
the source passes. -/

/-- `ILivechatAgentStatus.AVAILABLE`. -/
def AVAILABLE : String := "available"

/-- `ILivechatAgentStatus.NOT_AVAILABLE`. -/
def NOT_AVAILABLE : String := "not-available"

/-- The three facets of a user record the core mutates: live status
(`statusLivechat`), the set of currently open assigned business hours
(`openBusinessHours`), the engine-managed marker
(`livechatStatusSystemModified`), and the manually chosen default status
(`statusDefault`, absent when never set). -/
structure User where
  _id : String
  statusLivechat : String
  openBusinessHours : List String
  livechatStatusSystemModified : Bool
  statusDefault : Option String
  deriving Repr, DecidableEq

/-- First user with the given id. -/
def findUser (users : List User) (agentId : String) : Option User :=
  users.find? (fun u => u._id = agentId)

/-- Modelled from the spec: `AgentRepository.setStatus` without a guard —
`Users.setLivechatStatus(agentId, status)` writes the live status of the
agent. -/
def setLivechatStatus (users : List User) (agentId status : String) : List User :=
  users.map (fun u => if u._id = agentId then { u with statusLivechat := status } else u)

/-- Modelled from the spec: `AgentRepository.assignSchedule` —
`Users.addBusinessHourByAgentIds(agentIds, businessHourId)` adds the business
hour to each listed agent's set, touching nothing else. -/
def addBusinessHourByAgentIds (users : List User) (agentIds : List String)
    (businessHourId : String) : List User :=
  users.map (fun u =>
    if agentIds.contains u._id then
      { u with openBusinessHours := u.openBusinessHours ++ [businessHourId] }
    else u)

/-- Does a user match the guard object
`{ livechatStatusSystemModified: true, statusDefault: { $ne: 'offline' } }`?
(`$ne` also matches a document where the field is absent.) -/
def matchesStatusGuard (u : User) : Bool :=
  u.livechatStatusSystemModified && !(u.statusDefault == some "offline")

/-- Modelled from the spec: `AgentRepository.setStatus(agentId, status,
setByEngine, guardCondition)` — `Users.setLivechatStatusIf` is a single
conditional update writing `statusLivechat` and the extra fields only on the
documents matching the guard. -/
def setLivechatStatusIf (users : List User) (agentId status : String) : List User :=
  users.map (fun u =>
    if u._id = agentId && matchesStatusGuard u then
      { u with statusLivechat := status, livechatStatusSystemModified := true }
    else u)

/-- `changeAgentActiveStatus(agentId, status)`: the guarded conditional write,
with the guard `{ livechatStatusSystemModified: true, statusDefault: { $ne: 'offline' } }`
and the update stamping `{ livechatStatusSystemModified: true }`. -/
def changeAgentActiveStatus (users : List User) (agentId status : String) : List User :=
  setLivechatStatusIf users agentId status

/-- Modelled from the spec: `Users.isAgentWithinBusinessHours(agentId)` —
"is this agent currently inside any of its assigned schedules' windows",
i.e. the agent's set of currently open assigned business hours is nonempty. -/
def isAgentWithinBusinessHours (users : List User) (agentId : String) : Bool :=
  match findUser users agentId with
  | some u => !u.openBusinessHours.isEmpty
  | none => false

/-- `allowAgentChangeServiceStatus(agentId)`: returns
`UsersRepository.isAgentWithinBusinessHours(agentId)` unchanged. -/
def allowAgentChangeServiceStatus (users : List User) (agentId : String) : Bool :=
  isAgentWithinBusinessHours users agentId

/-- Modelled from the spec: `Users.removeBusinessHoursFromAllUsers()` —
"clear the schedule-derived status marker from every agent so manual status
control resumes — does not force a status value": the business-hour set and
the engine marker are cleared, the status value is untouched. -/
def removeBusinessHoursFromAllUsers (users : List User) : List User :=
  users.map (fun u => { u with openBusinessHours := [], livechatStatusSystemModified := false })

/-- `onDisableBusinessHours()`: a single call to
`removeBusinessHoursFromAllUsers`. -/
def onDisableBusinessHours (users : List User) : List User :=
  removeBusinessHoursFromAllUsers users

/-- `onNewAgentCreated(agentId)`.  `findOneDefaultBusinessHour` is the
`defaultBusinessHour` argument; `filterBusinessHoursThatMustBeOpened` (defined
in `Helper.ts`, outside the given file) is the oracle `mustBeOpened` deciding
whether the default business hour is currently open.  The open branch calls
`addBusinessHourByAgentIds` and then only logs — no status write appears in
the source. -/
def onNewAgentCreated (mustBeOpened : ConvertedBusinessHourData → Bool)
    (defaultBusinessHour : Option (String × ConvertedBusinessHourData))
    (users : List User) (agentId : String) : List User :=
  match defaultBusinessHour with
  | none => users
  | some (bhId, bh) =>
    if !mustBeOpened bh then
      setLivechatStatus users agentId NOT_AVAILABLE
    else
      addBusinessHourByAgentIds users [agentId] bhId

/-! ### Concrete inputs used by witnesses and counterexamples -/

/-- Timezone database fragment: `Europe/Madrid` at UTC+1 (CET, no DST). -/
def madridTzdb : String → Int := fun tz => if tz = "Europe/Madrid" then 60 else 0

/-- A timezone database where every zone is UTC. -/
def zeroTzdb : String → Int := fun _ => 0

/-- Schedule "Support-EU": timezone `Europe/Madrid`, Monday 09:00–17:00. -/
def madridBusinessHour : BusinessHourData :=
  { _id := none, active := true, timezoneName := "Europe/Madrid",
    workHours := [{ day := 1, «open» := true, start := 540, finish := 1020 }] }

/-- A draft whose only window is open with start 10:00 after finish 09:00. -/
def invalidBusinessHour : BusinessHourData :=
  { _id := some "bh9", active := true, timezoneName := "UTC",
    workHours := [{ day := 1, «open» := true, start := 600, finish := 540 }] }

/-- A draft whose second window is open with start = finish (11:00), between
two valid windows. -/
def partbadBusinessHour : BusinessHourData :=
  { _id := none, active := true, timezoneName := "UTC",
    workHours := [{ day := 1, «open» := true, start := 540, finish := 1020 },
                  { day := 2, «open» := true, start := 660, finish := 660 },
                  { day := 3, «open» := true, start := 540, finish := 1020 }] }

/-- An empty business-hour collection. -/
def sampleRepo : BHRepo := { docs := [], nextId := "id1" }

/-- A stored default business hour document. -/
def defaultBusinessHourDoc : ConvertedBusinessHourData :=
  { _id := some "bh1", active := true, timezoneName := "UTC", workHours := [] }

/-- A freshly created agent: default status, no business hours, no markers. -/
def newAgent : User :=
  { _id := "agent1", statusLivechat := NOT_AVAILABLE, openBusinessHours := [],
    livechatStatusSystemModified := false, statusDefault := none }

/-- An agent currently inside an open window of an assigned schedule. -/
def insideAgent : User :=
  { _id := "agent1", statusLivechat := AVAILABLE, openBusinessHours := ["bh1"],
    livechatStatusSystemModified := true, statusDefault := none }

/-- An agent who manually went offline (`statusDefault = 'offline'`). -/
def offlineAgent : User :=
  { _id := "a1", statusLivechat := NOT_AVAILABLE, openBusinessHours := [],
    livechatStatusSystemModified := true, statusDefault := some "offline" }

/-- An agent whose status is engine-managed and not manually offline. -/
def managedAgent : User :=
  { _id := "a2", statusLivechat := NOT_AVAILABLE, openBusinessHours := [],
    livechatStatusSystemModified := true, statusDefault := none }

/-! ### Helper lemmas -/

theorem weekTimeToMinute_toWeekTime (n : Nat) : weekTimeToMinute (toWeekTime n) = n := by
  simp only [weekTimeToMinute, toWeekTime]
  omega

theorem validateHour_isSome_iff (tzOffset : Int) (h : WorkHour) :
    (validateHour tzOffset h).isSome = true ↔
      h.«open» = true ∧ finishUtcInstant tzOffset h ≤ startUtcInstant tzOffset h := by
  unfold validateHour
  split_ifs with h1 h2
  · simp only [Option.isSome_some, true_iff]
    simp only [Bool.and_eq_true, decide_eq_true_eq] at h1
    exact ⟨h1.1, le_of_lt h1.2⟩
  · simp only [Option.isSome_some, true_iff]
    simp only [Bool.and_eq_true, decide_eq_true_eq] at h2
    exact ⟨h2.1, le_of_eq h2.2.symm⟩
  · simp only [Option.isSome_none, Bool.false_eq_true, false_iff, not_and]
    intro ho hle
    simp only [Bool.and_eq_true, decide_eq_true_eq, not_and] at h1 h2
    have hn1 := h1 ho
    have hn2 := h2 ho
    omega

theorem convertLoop_snd_isSome_iff (tzOffset serverOffset : Int) (hs : List WorkHour) :
    (convertLoop tzOffset serverOffset hs).2.isSome = true ↔
      ∃ h ∈ hs, (validateHour tzOffset h).isSome = true := by
  induction hs with
  | nil => simp [convertLoop]
  | cons h rest ih =>
    cases hv : validateHour tzOffset h with
    | some err =>
      simp only [convertLoop, hv, Option.isSome_some, true_iff]
      exact ⟨h, List.mem_cons_self h rest, by simp [hv]⟩
    | none =>
      simp only [convertLoop, hv]
      rw [ih]
      constructor
      · rintro ⟨x, hx, hvx⟩
        exact ⟨x, List.mem_cons_of_mem h hx, hvx⟩
      · rintro ⟨x, hx, hvx⟩
        rcases List.mem_cons.mp hx with rfl | hx
        · rw [hv] at hvx
          simp at hvx
        · exact ⟨x, hx, hvx⟩

theorem convertWorkHours_eq_error_iff (tzdb : String → Int) (serverOffset : Int)
    (bh : BusinessHourData) (e : String) :
    convertWorkHours tzdb serverOffset bh = Except.error e ↔
      (convertLoop (tzdb bh.timezoneName) serverOffset bh.workHours).2 = some e := by
  unfold convertWorkHours
  cases hr : (convertLoop (tzdb bh.timezoneName) serverOffset bh.workHours).2 with
  | none => simp [hr]
  | some err => simp [hr]

/-! ### C3: validation errors of `convertWorkHours` -/

/-- C3: normalization raises the `InvalidWindowOrder` validation error (one of
the two `error-business-hour-finish-time-…` throws) if and only if some window
has `open = true` and its finish UTC instant is less than or equal to its
start UTC instant; windows with `open = false` are never rejected. -/
theorem convertWorkHours_error_iff_open_finish_le_start
    (tzdb : String → Int) (serverOffset : Int) (bh : BusinessHourData) :
    (∃ e, convertWorkHours tzdb serverOffset bh = Except.error e) ↔
      ∃ h ∈ bh.workHours, h.«open» = true ∧
        finishUtcInstant (tzdb bh.timezoneName) h ≤ startUtcInstant (tzdb bh.timezoneName) h := by
  have key := convertLoop_snd_isSome_iff (tzdb bh.timezoneName) serverOffset bh.workHours
  constructor
  · rintro ⟨e, he⟩
    have hsnd := (convertWorkHours_eq_error_iff tzdb serverOffset bh e).mp he
    have : (convertLoop (tzdb bh.timezoneName) serverOffset bh.workHours).2.isSome = true := by
      rw [hsnd]
      rfl
    rcases key.mp this with ⟨h, hmem, hv⟩
    exact ⟨h, hmem, (validateHour_isSome_iff _ _).mp hv⟩
  · rintro ⟨h, hmem, ho, hle⟩
    have hv : (validateHour (tzdb bh.timezoneName) h).isSome = true :=
      (validateHour_isSome_iff _ _).mpr ⟨ho, hle⟩
    have hsome : (convertLoop (tzdb bh.timezoneName) serverOffset bh.workHours).2.isSome = true :=
      key.mpr ⟨h, hmem, hv⟩
    rcases Option.isSome_iff_exists.mp hsome with ⟨e, he⟩
    exact ⟨e, (convertWorkHours_eq_error_iff tzdb serverOffset bh e).mpr he⟩

/-! ### C4: no repository write on a validation error -/

/-- C4: if any window of the draft fails validation, `baseSaveBusinessHour`
performs no repository write at all — `convertWorkHours` runs over every
window before any `updateOne` / `insertOne`, so the stored collection is
returned unchanged alongside the propagated error. -/
theorem baseSaveBusinessHour_no_write_on_invalid_window
    (tzdb : String → Int) (serverOffset : Int) (bh : BusinessHourData) (repo : BHRepo)
    (e : String) (he : convertWorkHours tzdb serverOffset bh = Except.error e) :
    baseSaveBusinessHour tzdb serverOffset bh repo = (repo, Except.error e) := by
  unfold baseSaveBusinessHour
  rw [he]

/-- Witness for C4: saving a draft whose single window is open with
finish 09:00 before start 10:00 leaves the repository unchanged. -/
theorem baseSaveBusinessHour_no_write_on_invalid_window_witness :
    baseSaveBusinessHour zeroTzdb 0 invalidBusinessHour sampleRepo =
      (sampleRepo, Except.error errFinishBeforeStart) :=
  baseSaveBusinessHour_no_write_on_invalid_window zeroTzdb 0 invalidBusinessHour sampleRepo
    errFinishBeforeStart (by rfl)

theorem emod_week_nonneg (x : Int) : 0 ≤ x.emod (weekMinutes : Int) :=
  Int.emod_nonneg x (by decide)

theorem emod_week_toNat_cast (x : Int) :
    ((x.emod (weekMinutes : Int)).toNat : Int) = x.emod (weekMinutes : Int) :=
  Int.toNat_of_nonneg (emod_week_nonneg x)

/-! ### C6: the stored UTC representation is lossless -/

/-- C6: for every input to normalization, the week-instant re-derived from the
stored `utc.dayOfWeek` / `utc.time` equals the week-instant obtained by
converting the original local day/time in the authoring timezone to UTC
(instants of a weekly recurring window compared within the weekly cycle,
i.e. modulo one week). -/
theorem convertHour_utc_roundtrip (tzOffset serverOffset : Int) (h : WorkHour) :
    (weekTimeToMinute (convertHour tzOffset serverOffset h).start.utc : Int) =
      (startUtcInstant tzOffset h).emod (weekMinutes : Int) ∧
    (weekTimeToMinute (convertHour tzOffset serverOffset h).finish.utc : Int) =
      (finishUtcInstant tzOffset h).emod (weekMinutes : Int) := by
  constructor <;>
    simp [convertHour, normalizeEndpoint, weekTimeToMinute_toWeekTime, startUtcInstant,
      finishUtcInstant, emod_week_toNat_cast, emod_week_nonneg]

/-! ### C5: the cron trigger key is the UTC time shifted by the server offset -/

/-- C5: the trigger key (`cron`) of every normalized endpoint denotes the UTC
day-of-week/time shifted by adding the server process's current UTC offset (a
plain numeric offset), reduced to the weekly cycle; in particular for
`Europe/Madrid` (UTC+1) Monday 09:00–17:00 and server offset UTC+0 the UTC
window is Monday 08:00–16:00 and the trigger keys denote Monday 08:00 and
Monday 16:00. -/
theorem cron_trigger_key_is_utc_shifted_by_server_offset :
    (∀ (tzOffset serverOffset : Int) (day time : Nat),
        (weekTimeToMinute (normalizeEndpoint tzOffset serverOffset day time).cron : Int) =
          ((weekTimeToMinute (normalizeEndpoint tzOffset serverOffset day time).utc : Int) +
            serverOffset).emod (weekMinutes : Int)) ∧
    (convertWorkHours madridTzdb 0 madridBusinessHour).map (fun c =>
        c.workHours.map (fun w =>
          (dayName w.start.utc.dayOfWeek, hhmm w.start.utc.time,
           dayName w.start.cron.dayOfWeek, hhmm w.start.cron.time,
           dayName w.finish.utc.dayOfWeek, hhmm w.finish.utc.time,
           dayName w.finish.cron.dayOfWeek, hhmm w.finish.cron.time))) =
      Except.ok [("Monday", "08:00", "Monday", "08:00", "Monday", "16:00", "Monday", "16:00")] := by
  constructor
  · intro tzOffset serverOffset day time
    simp [normalizeEndpoint, serverShift, weekTimeToMinute_toWeekTime, emod_week_toNat_cast,
      emod_week_nonneg]
  · rfl

/-! ### C10: in-place normalization is partial on error -/

theorem convertLoop_eq_of_first_fail (tzOffset serverOffset : Int) :
    ∀ (hs : List WorkHour) (k : Nat) (hk : k < hs.length) (e : String),
      (∀ h ∈ hs.take k, validateHour tzOffset h = none) →
      validateHour tzOffset (hs.get ⟨k, hk⟩) = some e →
      convertLoop tzOffset serverOffset hs =
        ((hs.take k).map (fun h => HourSlot.converted (convertHour tzOffset serverOffset h)) ++
          (hs.drop k).map HourSlot.raw, some e)
  | [], k, hk, _, _, _ => absurd hk (by simp)
  | h :: rest, 0, _, e, _, hfail => by
    have hf : validateHour tzOffset h = some e := hfail
    simp [convertLoop, hf]
  | h :: rest, k + 1, hk, e, hpre, hfail => by
    have hvh : validateHour tzOffset h = none :=
      hpre h (List.mem_cons_self h (rest.take k))
    have hk' : k < rest.length := by simpa using hk
    have ih := convertLoop_eq_of_first_fail tzOffset serverOffset rest k hk' e
      (fun x hx => hpre x (List.mem_cons_of_mem h hx)) hfail
    simp [convertLoop, hvh, ih]

/-- C10: `convertWorkHours` mutates the caller's `workHours` array in place,
window by window: when validation throws on the `k`-th window (all earlier
windows valid), the loop leaves every slot before index `k` overwritten with
its normalized composite and the failing window with all later ones still in
their original form, while the thrown error propagates out of
`convertWorkHours`. -/
theorem convertWorkHours_partial_mutation_on_error
    (tzdb : String → Int) (serverOffset : Int) (bh : BusinessHourData) (k : Nat) (e : String)
    (hk : k < bh.workHours.length)
    (hpre : ∀ h ∈ bh.workHours.take k, validateHour (tzdb bh.timezoneName) h = none)
    (hfail : validateHour (tzdb bh.timezoneName) (bh.workHours.get ⟨k, hk⟩) = some e) :
    convertLoop (tzdb bh.timezoneName) serverOffset bh.workHours =
      ((bh.workHours.take k).map
          (fun h => HourSlot.converted (convertHour (tzdb bh.timezoneName) serverOffset h)) ++
        (bh.workHours.drop k).map HourSlot.raw, some e) ∧
    convertWorkHours tzdb serverOffset bh = Except.error e := by
  have hloop := convertLoop_eq_of_first_fail (tzdb bh.timezoneName) serverOffset bh.workHours
    k hk e hpre hfail
  refine ⟨hloop, ?_⟩
  rw [convertWorkHours_eq_error_iff, hloop]

/-- Witness for C10: a three-window draft whose middle window is open with
start = finish: the loop normalizes window 0, leaves windows 1 and 2 raw,
and the save-blocking error escapes. -/
theorem convertWorkHours_partial_mutation_on_error_witness :
    convertLoop (zeroTzdb partbadBusinessHour.timezoneName) 0 partbadBusinessHour.workHours =
      ((partbadBusinessHour.workHours.take 1).map
          (fun h => HourSlot.converted
            (convertHour (zeroTzdb partbadBusinessHour.timezoneName) 0 h)) ++
        (partbadBusinessHour.workHours.drop 1).map HourSlot.raw, some errFinishEqualsStart) ∧
    convertWorkHours zeroTzdb 0 partbadBusinessHour = Except.error errFinishEqualsStart :=
  convertWorkHours_partial_mutation_on_error zeroTzdb 0 partbadBusinessHour 1
    errFinishEqualsStart (by decide) (by decide) (by decide)

/-! ### C1: `onNewAgentCreated` with an open / closed default schedule -/

/-- C1 (evaluation at the failing input): with an open default schedule,
`onNewAgentCreated` assigns the schedule to the agent but writes no status —
the agent's status stays at its prior value instead of `available` (the open
branch of the source only logs).  With a closed default schedule the agent's
status is set to `not-available` and the schedule is not assigned. -/
theorem onNewAgentCreated_open_branch_writes_no_status :
    onNewAgentCreated (fun _ => true) (some ("bh1", defaultBusinessHourDoc)) [newAgent] "agent1" =
      [{ newAgent with openBusinessHours := ["bh1"] }] ∧
    (findUser (onNewAgentCreated (fun _ => true) (some ("bh1", defaultBusinessHourDoc))
        [newAgent] "agent1") "agent1").map User.statusLivechat = some NOT_AVAILABLE ∧
    onNewAgentCreated (fun _ => false) (some ("bh1", defaultBusinessHourDoc)) [newAgent] "agent1" =
      [{ newAgent with statusLivechat := NOT_AVAILABLE }] :=
  ⟨rfl, rfl, rfl⟩

/-! ### C2: when a manual status change is allowed -/

/-- C2 (counterexample): an agent currently inside an open window of an
assigned schedule, yet `allowAgentChangeServiceStatus` returns `true` — the
claim that it returns `false` whenever the agent is inside such a window
fails on the code. -/
theorem allowAgentChangeServiceStatus_true_while_inside :
    isAgentWithinBusinessHours [insideAgent] "agent1" = true ∧
    allowAgentChangeServiceStatus [insideAgent] "agent1" = true :=
  ⟨rfl, rfl⟩

/-- C2 (amended): `allowAgentChangeServiceStatus` returns `true` exactly when
the agent is currently inside at least one open window of its assigned active
schedules (it passes `isAgentWithinBusinessHours` through unchanged, so manual
changes are allowed during business hours, not outside them). -/
theorem allowAgentChangeServiceStatus_iff_within (users : List User) (agentId : String) :
    allowAgentChangeServiceStatus users agentId = true ↔
      ∃ u, findUser users agentId = some u ∧ u.openBusinessHours ≠ [] := by
  unfold allowAgentChangeServiceStatus isAgentWithinBusinessHours
  cases hu : findUser users agentId with
  | none => simp
  | some u =>
    simp only [hu, Option.some.injEq]
    constructor
    · intro hne
      refine ⟨u, rfl, fun hnil => ?_⟩
      rw [hnil] at hne
      simp at hne
    · rintro ⟨v, rfl, hne⟩
      cases hlist : u.openBusinessHours with
      | nil => exact absurd hlist hne
      | cons a as => simp [hlist]

/-! ### C7: the guarded conditional status write -/

/-- C7: `changeAgentActiveStatus` never writes a status for an agent whose
stored `statusDefault` is the manual `offline` marker; when the guard passes
(engine-managed marker set and `statusDefault ≠ 'offline'`) the new status is
written and the engine-managed marker is stamped. -/
theorem changeAgentActiveStatus_manual_offline_guard
    (users : List User) (agentId status : String) :
    ((∀ u ∈ users, u._id = agentId → u.statusDefault = some "offline") →
        changeAgentActiveStatus users agentId status = users) ∧
    ∀ u ∈ users, u._id = agentId → u.livechatStatusSystemModified = true →
      u.statusDefault ≠ some "offline" →
      { u with statusLivechat := status, livechatStatusSystemModified := true } ∈
        changeAgentActiveStatus users agentId status := by
  constructor
  · induction users with
    | nil => intro _; rfl
    | cons u rest ih =>
      intro hall
      have hu := hall u (List.mem_cons_self u rest)
      have hrest := ih (fun x hx hxid => hall x (List.mem_cons_of_mem u hx) hxid)
      simp only [changeAgentActiveStatus, setLivechatStatusIf, List.map_cons] at hrest ⊢
      rw [hrest]
      by_cases hid : u._id = agentId
      · simp [matchesStatusGuard, hu hid]
      · have hcond : (u._id = agentId && matchesStatusGuard u) = false := by
          simp [hid]
        simp [hcond]
  · intro u hmem hid hmarker hne
    have hguard : matchesStatusGuard u = true := by
      have hbeq : (u.statusDefault == some "offline") = false :=
        beq_eq_false_iff_ne.mpr hne
      simp [matchesStatusGuard, hmarker, hbeq]
    have hfu : (fun v : User =>
        if v._id = agentId && matchesStatusGuard v then
          { v with statusLivechat := status, livechatStatusSystemModified := true }
        else v) u =
        { u with statusLivechat := status, livechatStatusSystemModified := true } := by
      simp [hid, hguard]
    exact List.mem_map.mpr ⟨u, hmem, hfu⟩

/-- Witness for C7: the manually offline agent keeps its status untouched;
the engine-managed agent gets the new status with the marker stamped. -/
theorem changeAgentActiveStatus_manual_offline_guard_witness :
    changeAgentActiveStatus [offlineAgent] "a1" AVAILABLE = [offlineAgent] ∧
    { managedAgent with statusLivechat := AVAILABLE, livechatStatusSystemModified := true } ∈
      changeAgentActiveStatus [managedAgent] "a2" AVAILABLE :=
  ⟨(changeAgentActiveStatus_manual_offline_guard [offlineAgent] "a1" AVAILABLE).1 (by decide),
   (changeAgentActiveStatus_manual_offline_guard [managedAgent] "a2" AVAILABLE).2 managedAgent
     (by decide) (by decide) (by decide) (by decide)⟩

/-! ### C8: disabling clears the markers and nothing else -/

/-- C8: `onDisableBusinessHours` removes the engine-managed business-hour
markers from every agent and issues no status write: each agent's status
value (and id and manual default) is left unchanged, while the open
business-hour set and engine marker are cleared on every agent. -/
theorem onDisableBusinessHours_clears_markers_keeps_status (users : List User) :
    (onDisableBusinessHours users).map User.statusLivechat = users.map User.statusLivechat ∧
    (onDisableBusinessHours users).map User._id = users.map User._id ∧
    (onDisableBusinessHours users).map User.statusDefault = users.map User.statusDefault ∧
    (onDisableBusinessHours users).all
      (fun u => !u.livechatStatusSystemModified && u.openBusinessHours.isEmpty) = true := by
  refine ⟨?_, ?_, ?_, ?_⟩ <;>
  · induction users with
    | nil => rfl
    | cons u rest ih =>
      simp only [onDisableBusinessHours, removeBusinessHoursFromAllUsers, List.map_cons,
        List.all_cons] at ih ⊢
      simp [ih]

/-! ### C9: the two return formats of `getUTCFromTimezone` -/

theorem formatZ_ne_offsetNumberString (so : Int) (hne : so ≠ 0) (hdvd : (15 : Int) ∣ so)
    (hlb : -840 ≤ so) (hub : so ≤ 840) : formatZ so ≠ offsetNumberString so := by
  rcases hdvd with ⟨k, hk⟩
  have hklb : -56 ≤ k := by omega
  have hkub : k ≤ 56 := by omega
  subst hk
  interval_cases k <;> first
    | exact absurd (by decide) hne
    | decide

/-- C9: the two branches of `getUTCFromTimezone` use incompatible formats:
with a timezone name it returns moment's `Z`-format offset string
(e.g. `+02:00`), without one it returns the server's UTC offset divided by 60
as a bare decimal number string (e.g. `2`, `5.5`); for any nonzero offset
(over the quarter-hour offsets of the timezone database) the two branches
never produce the same string for the same offset. -/
theorem getUTCFromTimezone_two_formats
    (tzdb : String → Int) (serverOffset : Int) (name : String)
    (h0 : serverOffset ≠ 0) (hdvd : (15 : Int) ∣ serverOffset)
    (hlb : -840 ≤ serverOffset) (hub : serverOffset ≤ 840)
    (hsame : tzdb name = serverOffset) :
    getUTCFromTimezone tzdb serverOffset (some name) ≠
      getUTCFromTimezone tzdb serverOffset none ∧
    getUTCFromTimezone (fun _ => 120) 120 (some "Europe/Athens") = "+02:00" ∧
    getUTCFromTimezone tzdb 120 none = "2" ∧
    getUTCFromTimezone tzdb 330 none = "5.5" := by
  refine ⟨?_, rfl, rfl, rfl⟩
  simp only [getUTCFromTimezone, hsame]
  exact formatZ_ne_offsetNumberString serverOffset h0 hdvd hlb hub

/-- Witness for C9: UTC+2 rendered by the two branches —
`+02:00` vs `2`. -/
theorem getUTCFromTimezone_two_formats_witness :
    getUTCFromTimezone (fun _ => 120) 120 (some "Europe/Athens") ≠
      getUTCFromTimezone (fun _ => 120) 120 none :=
  (getUTCFromTimezone_two_formats (fun _ => 120) 120 "Europe/Athens" (by decide)
    ⟨8, by decide⟩ (by decide) (by decide) rfl).1

end BusinessHour
